import Mathlib

/-!
Verification development for the wirewan backend (WireGuard overlay manager).

Each Python service/endpoint relevant to the checked properties is shallowly
embedded as an executable Lean definition, translated from the source under
`backend/app/`.  IPv4 addresses are modelled as natural numbers below 2^32
(the dotted-quad rendering is a bijection), database rows as structures, and
Python exceptions as `Except`/`Option` results.
-/

/-! ## IPv4 networks (Python `ipaddress` semantics)

Models the parts of the Python standard library `ipaddress` module that the
source uses: `ip_network(s, strict=False)` (which masks host bits),
`network.hosts()`, `overlaps`, and subset.  Addresses are `Nat` values below
`2 ^ 32`.
-/

/-- Size in addresses of an IPv4 block with the given mask length `p`
    (so `2 ^ (32 - p)`). -/
def blockSize (p : Nat) : Nat := 2 ^ (32 - p)

/-- Python `ip_network(addr + "/" + p, strict=False)` masks the host bits of
    `addr`: the network address is `addr` rounded down to a multiple of
    `2 ^ (32 - p)`. -/
def maskBase (addr p : Nat) : Nat := addr / blockSize p * blockSize p

/-- An IPv4 network: network (base) address plus mask length.  `base` is
    always host-bit-free because every constructor goes through `maskBase`. -/
structure Ipv4Net where
  base : Nat
  plen : Nat
deriving DecidableEq, Repr

/-- Broadcast (last) address of a network. -/
def Ipv4Net.lastAddr (n : Ipv4Net) : Nat := n.base + blockSize n.plen - 1

/-- Python `IPv4Network.overlaps`: the two CIDR address ranges intersect. -/
def netOverlaps (a b : Ipv4Net) : Bool :=
  decide (a.base ≤ b.lastAddr) && decide (b.base ≤ a.lastAddr)

/-- Network `a` is fully contained in network `b` (`a.subnet_of(b)`). -/
def netSubset (a b : Ipv4Net) : Bool :=
  decide (b.base ≤ a.base) && decide (a.lastAddr ≤ b.lastAddr)

/-- Numeric value of a dotted quad `a.b.c.d`. -/
def quad (a b c d : Nat) : Nat := ((a * 256 + b) * 256 + c) * 256 + d

/-! ## Parsing CIDR strings

The Python function `ipaddress.ip_network` accepts a dotted quad with an optional
`/p` mask-length suffix; each octet is a decimal number `0..255` without
leading zeros; out-of-range values raise `ValueError` (modelled as `none`).
Dotted netmask suffixes, which no caller in this repository uses, are not
modelled. -/

/-- Split a character list on a separator, keeping empty pieces, like
    the Python call `str.split(sep)` for a one-character separator. -/
def splitListOn (sep : Char) : List Char → List (List Char)
  | [] => [[]]
  | c :: rest =>
    let r := splitListOn sep rest
    if c = sep then [] :: r
    else
      match r with
      | [] => [[c]]
      | h :: t => (c :: h) :: t

/-- Value of a decimal digit character. -/
def digitVal (c : Char) : Option Nat :=
  if '0' ≤ c && c ≤ '9' then some (c.toNat - 48) else none

/-- Parse a non-empty all-digit character list as a decimal number. -/
def parseDecimal (cs : List Char) : Option Nat :=
  if cs.isEmpty then none
  else
    cs.foldl
      (fun acc c =>
        match acc, digitVal c with
        | some a, some d => some (a * 10 + d)
        | _, _ => none)
      (some 0)

/-- Parse one decimal octet (`0..255`, no leading zeros, as the CPython
    `ipaddress` module enforces). -/
def parseOctet (cs : List Char) : Option Nat := do
  let n ← parseDecimal cs
  if cs.length > 1 && cs.headD ' ' == '0' then none
  else if n ≤ 255 then some n else none

/-- Parse a dotted-quad IPv4 address to its numeric value. -/
def parseIpv4 (cs : List Char) : Option Nat :=
  match splitListOn '.' cs with
  | [a, b, c, d] => do
    let a ← parseOctet a
    let b ← parseOctet b
    let c ← parseOctet c
    let d ← parseOctet d
    some (quad a b c d)
  | _ => none

/-- Python `ip_network(s, strict=False)`: address with optional mask length,
    host bits masked away; `none` models the `ValueError`. -/
def parseCidr (s : String) : Option Ipv4Net :=
  match splitListOn '/' s.data with
  | [addr] => (parseIpv4 addr).map (fun ip => ⟨ip, 32⟩)
  | [addr, p] => do
    let ip ← parseIpv4 addr
    let pl ← parseDecimal p
    if pl ≤ 32 then some ⟨maskBase ip pl, pl⟩ else none
  | _ => none

/-- Canonical dotted rendering of an address. -/
def showIp (n : Nat) : String :=
  toString (n / 2 ^ 24 % 256) ++ "." ++ toString (n / 2 ^ 16 % 256) ++ "." ++
    toString (n / 2 ^ 8 % 256) ++ "." ++ toString (n % 256)

/-- Canonical rendering of a network (`str(candidate_net)` in Python). -/
def showNet (n : Ipv4Net) : String := showIp n.base ++ "/" ++ toString n.plen

/-! ## IP allocator (`app/services/ip_allocation.py`)

`IPAllocationService.get_available_hosts` calls `network.hosts()`.  In
Python, `hosts()` excludes the network and broadcast addresses for mask lengths up to
30, but returns both addresses of a /31 and the single address of a /32 —
this library behaviour is part of the embedding because the allocator
inherits it. -/

/-- Python `IPv4Network.hosts()`, as a list of numeric addresses in ascending
    order. -/
def hostsList (n : Ipv4Net) : List Nat :=
  if 31 ≤ n.plen then (List.range (blockSize n.plen)).map (fun i => n.base + i)
  else (List.range (blockSize n.plen - 2)).map (fun i => n.base + 1 + i)

/-- Spec-side definition (refinement target), following the words of the
    specification only: the usable hosts of a pool are all its addresses with
    the network and broadcast addresses excluded. -/
def specUsableHosts (n : Ipv4Net) : List Nat :=
  (List.range (blockSize n.plen - 2)).map (fun i => n.base + 1 + i)

/-- `IPAllocationService.allocate_tunnel_ip` / `allocate_shared_service_ip`
    after the pool CIDR has been parsed: return the first host of the pool
    that is not in the allocated set, `none` when none remains.  Allocated
    addresses are modelled numerically (the source compares canonical dotted
    strings, and `showIp` is injective on addresses). -/
def allocateFirstFree (allocated : List Nat) (pool : Ipv4Net) : Option Nat :=
  (hostsList pool).find? (fun ip => !allocated.contains ip)

/-- Outcome of the tunnel-IP allocation step of `create_peer`
    (`app/api/endpoints/peers.py`, lines 166-173). -/
inductive AllocOutcome where
  | assigned (ip : Nat)
  | http400NoAvailableIps
deriving DecidableEq, Repr

/-- The `create_peer` allocation step: a `None` from the allocator is
    surfaced as HTTP 400 "No available tunnel IPs in the WAN network". -/
def createPeerAllocate (allocated : List Nat) (pool : Ipv4Net) : AllocOutcome :=
  match allocateFirstFree allocated pool with
  | some ip => .assigned ip
  | none => .http400NoAvailableIps

/-! ## Conflict detection (`app/services/conflict_detection.py`) -/

/-- Severity levels of `ConflictSeverity`. -/
inductive Severity where
  | critical
  | warning
  | info
deriving DecidableEq, Repr

/-- Suggested resolutions of `ConflictResolution`. -/
inductive Resolution where
  | dontRoute
  | useNat
  | changeSubnet
  | selectiveRouting
deriving DecidableEq, Repr

/-- The `SubnetConflict` dataclass. -/
structure SubnetConflict where
  subnet : String
  conflictType : String
  severity : Severity
  conflictingWith : String
  conflictingSubnet : String
  description : String
  suggestedResolutions : List Resolution
deriving DecidableEq, Repr

/-- A peer row as seen by the conflict detector: id, name, and the `cidr`
    strings of its local subnets. -/
structure PeerLite where
  pid : String
  name : String
  subnetCidrs : List String
deriving DecidableEq, Repr

/-- A WAN row with the eagerly loaded peers used by the detector. -/
structure WanLite where
  tunnelIpRange : String
  sharedServicesRange : String
  peers : List PeerLite
deriving DecidableEq, Repr

/-- `ConflictDetectionService.subnets_overlap`: parse both CIDRs and test
    intersection; a `ValueError` from either parse yields `False`. -/
def subnetsOverlap (c1 c2 : String) : Bool :=
  match parseCidr c1, parseCidr c2 with
  | some n1, some n2 => netOverlaps n1 n2
  | _, _ => false

/-- The list comprehension at the top of `detect_conflicts`:
    `[ip_network(r, strict=False) for r in existing_routes if r]`.  A bad
    non-empty route string raises `ValueError` (uncaught there), modelled as
    `Except.error`. -/
def parseExistingRoutes : List String → Except Unit (List Ipv4Net)
  | [] => .ok []
  | r :: rest =>
    if r = "" then parseExistingRoutes rest
    else
      match parseCidr r with
      | some n => (parseExistingRoutes rest).map (fun l => n :: l)
      | none => .error ()

/-- Conflict record produced when a candidate subnet overlaps the tunnel range of the WAN. -/
def tunnelOverlapConflict (tunnelRange subnet : String) : SubnetConflict :=
  { subnet := subnet
    conflictType := "tunnel_ip_overlap"
    severity := .critical
    conflictingWith := "WAN Tunnel Network"
    conflictingSubnet := tunnelRange
    description :=
      "Subnet " ++ subnet ++ " overlaps with WAN tunnel IP range " ++ tunnelRange
    suggestedResolutions := [.dontRoute, .useNat, .changeSubnet] }

/-- Conflict record produced when a candidate subnet overlaps the shared-services range of the WAN. -/
def sharedOverlapConflict (sharedRange subnet : String) : SubnetConflict :=
  { subnet := subnet
    conflictType := "shared_services_overlap"
    severity := .critical
    conflictingWith := "WAN Shared Services Network"
    conflictingSubnet := sharedRange
    description :=
      "Subnet " ++ subnet ++ " overlaps with shared services range " ++ sharedRange
    suggestedResolutions := [.dontRoute, .useNat, .changeSubnet] }

/-- Conflict record for an overlap with the advertised subnet of another peer. -/
def peerOverlapConflict (peerName otherCidr subnet : String) : SubnetConflict :=
  { subnet := subnet
    conflictType := "peer_subnet_overlap"
    severity := .warning
    conflictingWith := "Peer: " ++ peerName
    conflictingSubnet := otherCidr
    description :=
      "Subnet " ++ subnet ++ " overlaps with " ++ peerName ++ "\x27s subnet " ++ otherCidr
    suggestedResolutions := [.useNat, .selectiveRouting, .changeSubnet] }

/-- Conflict record for an overlap with an existing route on the target
    router. -/
def routeOverlapConflict (routeNet : Ipv4Net) (subnet : String) : SubnetConflict :=
  { subnet := subnet
    conflictType := "existing_route_overlap"
    severity := .warning
    conflictingWith := "Existing routed network"
    conflictingSubnet := showNet routeNet
    description :=
      "Subnet " ++ subnet ++ " overlaps with existing routed network " ++ showNet routeNet
    suggestedResolutions := [.dontRoute, .selectiveRouting, .changeSubnet] }

/-- Body of the `for subnet in subnets` loop of `detect_conflicts`: the
    conflicts contributed by one candidate subnet, in emission order. -/
def conflictsForSubnet (wan : WanLite) (peerId : String) (routeNets : List Ipv4Net)
    (subnet : String) : List SubnetConflict :=
  (if subnetsOverlap subnet wan.tunnelIpRange then
    [tunnelOverlapConflict wan.tunnelIpRange subnet] else []) ++
  (if subnetsOverlap subnet wan.sharedServicesRange then
    [sharedOverlapConflict wan.sharedServicesRange subnet] else []) ++
  ((wan.peers.filter (fun p => !(p.pid == peerId))).flatMap (fun p =>
    (p.subnetCidrs.filter (fun c => subnetsOverlap subnet c)).map
      (fun c => peerOverlapConflict p.name c subnet))) ++
  ((routeNets.filter (fun rn =>
      match parseCidr subnet with
      | some sn => netOverlaps sn rn
      | none => false)).map (fun rn => routeOverlapConflict rn subnet))

/-- `ConflictDetectionService.detect_conflicts`.  The WAN lookup is passed in
    as an `Option` (a missing WAN yields the empty list); an unparsable
    non-empty entry of `existing_routes` propagates as an exception. -/
def detectConflicts (wan : Option WanLite) (peerId : String) (subnets : List String)
    (existingRoutes : List String) : Except Unit (List SubnetConflict) := do
  let routeNets ← parseExistingRoutes existingRoutes
  match wan with
  | none => pure []
  | some w => pure (subnets.flatMap (conflictsForSubnet w peerId routeNets))

/-! ## NAT translation subnet search
    (`ConflictDetectionService.find_available_nat_subnet`) -/

/-- The candidate networks in search order: `"172.{16..31}.0.0/p"` first,
    then `"192.168.{0..255}.0/p"`, each parsed with `strict=False` (so the
    host bits of the literal are masked away). -/
def natCandidates (p : Nat) : List Ipv4Net :=
  ((List.range 16).map (fun i => ⟨maskBase (quad 172 (16 + i) 0 0) p, p⟩)) ++
    ((List.range 256).map (fun t => ⟨maskBase (quad 192 168 t 0) p, p⟩))

/-- Acceptance test of one candidate: every entry of `existing_subnets` must
    parse and must not overlap the candidate.  (In the source an unparsable
    entry raises `ValueError`, caught by the per-candidate handler, which
    skips the candidate — the same outcome as a rejection.) -/
def natCandidateAccepted (existing : List String) (cand : Ipv4Net) : Bool :=
  existing.all (fun e =>
    match parseCidr e with
    | some en => !netOverlaps cand en
    | none => false)

/-- `find_available_nat_subnet`: parse the conflicting subnet (a parse error
    escapes as `ValueError`) and return the first acceptable candidate of the
    same mask length, or `none` when all candidates are rejected. -/
def findAvailableNatSubnet (conflicting : String) (existing : List String) :
    Except Unit (Option Ipv4Net) :=
  match parseCidr conflicting with
  | none => .error ()
  | some cn => .ok ((natCandidates cn.plen).find? (natCandidateAccepted existing))

/-! ## Configuration generator (`app/services/config_generator.py`)

Only the `AllowedIPs` computation of the per-peer blocks of
`generate_wireguard_config` (lines 123-161) is embedded; it is what claim C3
is about.  Python truthiness of nullable string columns is modelled by
`pyTruthy`. -/

/-- Truthiness of an `Optional[str]` column: `None` and `""` are falsy. -/
def pyTruthy : Option String → Bool
  | none => false
  | some s => !(s == "")

/-- A `LocalSubnet` row as used by the generator. -/
structure SubnetRow where
  cidr : String
  isRouted : Bool
  natEnabled : Bool
  natTranslatedCidr : Option String
deriving DecidableEq, Repr

/-- A `PublishedService` row as used by the generator. -/
structure ServiceRow where
  sharedIp : String
  isActive : Bool
deriving DecidableEq, Repr

/-- A `Peer` row with the relations loaded by `get_wan_peers`. -/
structure PeerRow where
  pid : String
  publicKey : Option String
  tunnelIp : Option String
  endpoint : Option String
  localSubnets : List SubnetRow
  publishedServices : List ServiceRow
deriving DecidableEq, Repr

/-- Advertised CIDR of a routed subnet: the NAT-translated CIDR when NAT is
    enabled and a translation is set, the raw CIDR otherwise. -/
def advertisedCidr (s : SubnetRow) : String :=
  if s.natEnabled && pyTruthy s.natTranslatedCidr then s.natTranslatedCidr.getD ""
  else s.cidr

/-- The `AllowedIPs` list of one generated `[Peer]` block (lines 140-161 of
    the generator), after the final `set(...)` deduplication.  The Python
    `set` iteration order is unspecified; `List.dedup` keeps first
    occurrences, which is sound for the membership and no-duplicate
    properties stated about it. -/
def peerBlockAllowedIps (routeAll : Bool) (other : PeerRow) (sharedRange : String) :
    List String :=
  ((if pyTruthy other.tunnelIp then [other.tunnelIp.getD "" ++ "/32"] else []) ++
   (if routeAll && pyTruthy other.endpoint then ["0.0.0.0/0"] else []) ++
   ((other.localSubnets.filter (fun s => s.isRouted)).map advertisedCidr) ++
   ((other.publishedServices.filter (fun s => s.isActive)).map
     (fun s => s.sharedIp ++ "/32")) ++
   [sharedRange]).dedup

/-- The `[Peer]` blocks emitted for a target peer: one per other peer of the
    WAN whose `public_key` is truthy, paired with its `AllowedIPs` list. -/
def wireguardPeerBlocks (p : PeerRow) (allPeers : List PeerRow)
    (sharedRange : String) (routeAll : Bool) : List (PeerRow × List String) :=
  (allPeers.filter (fun o => !(o.pid == p.pid) && pyTruthy o.publicKey)).map
    (fun o => (o, peerBlockAllowedIps routeAll o sharedRange))

/-! ## Secret envelope (`app/core/security.py`)

`encrypt_value` / `decrypt_value` pass any non-empty string through a
`cryptography.fernet.Fernet` instance whose key is fixed at startup.  The
Fernet library is external to the repository, so its observable contract is
modelled here from the published Fernet token format: a token is the
urlsafe-base64 of `0x80 ∥ timestamp ∥ IV ∥ ciphertext ∥ HMAC` — in
particular the length of a valid token is a multiple of four characters (base64
decoding fails otherwise, raising `InvalidToken`), every token of this key
begins with the version marker (base64 of `0x80...` starts with `'g'`), and
encryption depends on a fresh random IV (the `nonce` argument below), so it
is not a function of the plaintext alone.  The cipher layer (AES-CBC with
the fixed key) is modelled as an explicit invertible encoding; the fields of
a token are length-delimited so that decryption is total and executable. -/

/-- Fernet decryption errors. -/
inductive FernetErr where
  | invalidToken
deriving DecidableEq, Repr

/-- Read a unary-encoded count terminated by a semicolon. -/
def readUnary (c : Char) : List Char → Option (Nat × List Char)
  | [] => none
  | x :: xs =>
    if x = ';' then some (0, xs)
    else if x = c then (readUnary c xs).map (fun p => (p.1 + 1, p.2))
    else none

/-- Token body of the modelled Fernet scheme: version marker, IV (nonce),
    payload length, payload. -/
def fernetCore (nonce : Nat) (s : List Char) : List Char :=
  'g' :: 'A' :: 'A' :: 'A' ::
    (List.replicate nonce 'N' ++ ';' ::
      (List.replicate s.length 'L' ++ ';' :: s))

/-- Modelled Fernet encryption at a given IV/nonce: the token body padded
    with `'='` to a multiple of four characters (base64 length invariant). -/
def fernetEncodeL (nonce : Nat) (s : List Char) : List Char :=
  fernetCore nonce s ++
    List.replicate ((4 - (fernetCore nonce s).length % 4) % 4) '='

/-- Strip the version marker from a token candidate. -/
def stripHeader : List Char → Option (List Char)
  | 'g' :: 'A' :: 'A' :: 'A' :: rest => some rest
  | _ => none

/-- Modelled Fernet decryption: reject any candidate whose length is not a
    multiple of four or that lacks the version marker, then read the fields
    back. -/
def fernetDecodeL (t : List Char) : Option (Nat × List Char) :=
  if t.length % 4 ≠ 0 then none
  else do
    let rest ← stripHeader t
    let (nonce, r1) ← readUnary 'N' rest
    let (len, r2) ← readUnary 'L' r1
    if len ≤ r2.length then
      if (r2.drop len).all (fun c => c == '=') then some (nonce, r2.take len)
      else none
    else none

/-- `encrypt_value`: the empty string bypasses the Fernet layer. -/
def encryptValue (nonce : Nat) (value : String) : String :=
  if value = "" then value else ⟨fernetEncodeL nonce value.data⟩

/-- `decrypt_value`: the empty string bypasses the Fernet layer; any other
    input goes through Fernet decryption, whose `InvalidToken` error is
    modelled as `Except.error`. -/
def decryptValue (t : String) : Except FernetErr String :=
  if t = "" then .ok t
  else
    match fernetDecodeL t.data with
    | some (_, s) => .ok ⟨s⟩
    | none => .error .invalidToken


/-! ## Router API client (`app/services/mikrotik_client.py`)

The client lists each resource family with an optional `comment_filter`,
implemented in Python as `comment_filter in r.get("comment", "")` — a
substring test, not a begins-with test.  Router state is modelled as six
lists of resources; deletion by `.id` is modelled as removal of the matching
resources (RouterOS ids are unique per family). -/

/-- Character-list test: does `needle` occur at the very front of `hay`? -/
def leadsWith : List Char → List Char → Bool
  | [], _ => true
  | _ :: _, [] => false
  | x :: xs, y :: ys => x == y && leadsWith xs ys

/-- The Python test `needle in hay` on strings: contiguous substring containment. -/
def containsSeq (needle : List Char) : List Char → Bool
  | [] => leadsWith needle []
  | c :: t => leadsWith needle (c :: t) || containsSeq needle t

/-- String form of `needle in hay` (Python `in` operator). -/
def pyInStr (needle hay : String) : Bool := containsSeq needle.data hay.data

/-- Spec-side predicate: the comment begins with the marker
    (`comment.startswith(marker)`). -/
def specBeginsWith (hay needle : String) : Bool := leadsWith needle.data hay.data

/-- The system-wide ownership comment marker (`COMMENT_PREFIX`). -/
def ownMarker : String := "WAN-Overlay-Manager:"

/-- One router resource: RouterOS `.id`, a name (doubling as the interface
    field of addresses and WireGuard peers), and a comment. -/
structure Resource where
  rid : Nat
  name : String
  comment : String
deriving DecidableEq, Repr

/-- Router state: the six resource families the client manages. -/
structure RouterState where
  natRules : List Resource
  firewallRules : List Resource
  routes : List Resource
  addrs : List Resource
  wgPeers : List Resource
  wgIfaces : List Resource
deriving DecidableEq, Repr

/-- The `comment_filter` of the list operations: keep the resources whose
    comment contains the filter as a substring. -/
def filterByComment (marker : String) (l : List Resource) : List Resource :=
  l.filter (fun r => pyInStr marker r.comment)

/-- `MikrotikAPIClient.get_managed_resources`: every family filtered by the
    ownership marker. -/
def getManagedResources (st : RouterState) : RouterState :=
  { natRules := filterByComment ownMarker st.natRules
    firewallRules := filterByComment ownMarker st.firewallRules
    routes := filterByComment ownMarker st.routes
    addrs := filterByComment ownMarker st.addrs
    wgPeers := filterByComment ownMarker st.wgPeers
    wgIfaces := filterByComment ownMarker st.wgIfaces }

/-- Router state with no resources at all. -/
def emptyRouter : RouterState := ⟨[], [], [], [], [], []⟩

/-- `MikrotikAPIClient.remove_managed_resources`: per family, list with the
    ownership filter and delete each result by id, in the order of the source
    NAT rules, firewall rules, routes, addresses, WireGuard peers, WireGuard
    interfaces.  Returns the new router state and the ordered deletion log
    (family tag, resource id). -/
def removeManagedResources (st : RouterState) : RouterState × List (String × Nat) :=
  (⟨st.natRules.filter (fun r => !pyInStr ownMarker r.comment),
    st.firewallRules.filter (fun r => !pyInStr ownMarker r.comment),
    st.routes.filter (fun r => !pyInStr ownMarker r.comment),
    st.addrs.filter (fun r => !pyInStr ownMarker r.comment),
    st.wgPeers.filter (fun r => !pyInStr ownMarker r.comment),
    st.wgIfaces.filter (fun r => !pyInStr ownMarker r.comment)⟩,
   (filterByComment ownMarker st.natRules).map (fun r => ("nat", r.rid)) ++
   (filterByComment ownMarker st.firewallRules).map (fun r => ("firewall", r.rid)) ++
   (filterByComment ownMarker st.routes).map (fun r => ("route", r.rid)) ++
   (filterByComment ownMarker st.addrs).map (fun r => ("address", r.rid)) ++
   (filterByComment ownMarker st.wgPeers).map (fun r => ("wireguard-peer", r.rid)) ++
   (filterByComment ownMarker st.wgIfaces).map (fun r => ("wireguard-interface", r.rid)))

/-! ## Deployment jobs (`app/services/deployment.py`,
    `app/api/endpoints/deployments.py`) -/

/-- The `JobStatus` enumeration. -/
inductive JobStatus where
  | pending
  | running
  | completed
  | failed
  | cancelled
deriving DecidableEq, Repr

/-- A `DeploymentJob` row, reduced to the fields the claims are about. -/
structure JobRow where
  jid : Nat
  peerId : String
  status : JobStatus
deriving DecidableEq, Repr

/-- `DeploymentService.deploy_configuration` (lines 440-463): look the peer
    up, require a MikroTik peer, create a new pending job, and launch the
    background task.  The peer table maps peer id to "is a MikroTik device";
    the job table is the current `deployment_jobs` content.  The source
    performs no check of existing jobs for the peer. -/
def deployConfiguration (peerTable : List (String × Bool)) (jobs : List JobRow)
    (peerId : String) (newId : Nat) : Except String (JobRow × List JobRow) :=
  match peerTable.find? (fun p => p.1 == peerId) with
  | none => .error "Peer not found"
  | some p =>
    if !p.2 then .error "Peer is not a MikroTik device"
    else
      let j : JobRow := ⟨newId, peerId, .pending⟩
      .ok (j, jobs ++ [j])

/-- `retry_job` (`deployments.py`, lines 146-182): only a failed job may be
    retried; a retry calls `deploy_configuration` for the same peer. -/
def retryJob (peerTable : List (String × Bool)) (jobs : List JobRow)
    (jobId : Nat) (newId : Nat) : Except (Nat × String) (JobRow × List JobRow) :=
  match jobs.find? (fun j => j.jid == jobId) with
  | none => .error (404, "Deployment job not found")
  | some j =>
    if !(j.status == .failed) then .error (400, "Can only retry failed jobs")
    else
      match deployConfiguration peerTable jobs j.peerId newId with
      | .ok r => .ok r
      | .error e => .error (500, e)

/-- `cancel_job` (`deployments.py`, lines 117-143), applied to the status
    field of the job: only a pending or running job may be cancelled. -/
def cancelJob (s : JobStatus) : Except Nat JobStatus :=
  if s == .pending || s == .running then .ok .cancelled
  else .error 400

/-- Number of jobs of a peer that are pending or running. -/
def nonTerminalCount (jobs : List JobRow) (peerId : String) : Nat :=
  jobs.countP (fun j => j.peerId == peerId &&
    (j.status == .pending || j.status == .running))

/-! ## The background apply worker (`DeploymentService._execute_deployment`,
    lines 465-699)

The worker is embedded as a straight-line script of observable events —
job-row writes, database commits, and router API calls (reads and writes) —
derived from the initial router state and the desired state, exactly in
source order.  A `MikrotikAPIError` can be raised by any router call
(including the connection test, whose failure raises at line 517); failure
injection is modelled by an optional index of the client call at which the
exception occurs, after which the `except` branch of the source runs: it writes
`status = failed` plus the error message and commits.  The source contains
no read of `job.status` anywhere in the run. -/

/-- Observable worker events. -/
inductive DEv where
  | stWrite (s : JobStatus)
  | pgWrite (n : Nat)
  | bkWrite (snap : RouterState)
  | commitEv
  | callRead (tag : String)
  | callWrite (tag : String)
deriving DecidableEq, Repr

/-- Desired state, reduced to the comment lists of the resources the worker
    creates per family. -/
structure DesiredPlan where
  dpeers : List String
  daddrs : List String
  droutes : List String
  dfws : List String
  dnats : List String
deriving DecidableEq, Repr

/-- The delete guard of the replace loops of the worker:
    `if comment and comment.startswith(COMMENT_PREFIX)`. -/
def managedStarts (c : String) : Bool :=
  !(c == "") && leadsWith ownMarker.data c.data

/-- The event script of the worker on the success path, in source order. -/
def deployScript (router : RouterState) (dp : DesiredPlan) (ifaceName : String) :
    List DEv :=
  [DEv.stWrite .running, .pgWrite 5, .commitEv,
   .callRead "test-connection",
   .pgWrite 10, .commitEv,
   .pgWrite 15, .commitEv,
   .callRead "get-managed-resources",
   .bkWrite (getManagedResources router),
   .pgWrite 20, .commitEv,
   .callRead "get-wireguard-interfaces"] ++
  (if router.wgIfaces.any (fun r => r.name == ifaceName) then
    [DEv.callWrite "update-wireguard-interface"]
  else [DEv.callWrite "create-wireguard-interface"]) ++
  [DEv.pgWrite 30, .commitEv, .callRead "get-wireguard-peers"] ++
  ((router.wgPeers.filter (fun r => r.name == ifaceName && managedStarts r.comment)).map
    (fun r => DEv.callWrite ("delete-wireguard-peer-" ++ toString r.rid))) ++
  [DEv.pgWrite 40, .commitEv] ++
  (dp.dpeers.map (fun c => DEv.callWrite ("create-wireguard-peer-" ++ c))) ++
  [DEv.pgWrite 50, .commitEv, .callRead "get-ip-addresses"] ++
  ((router.addrs.filter (fun r => r.name == ifaceName && managedStarts r.comment)).map
    (fun r => DEv.callWrite ("delete-ip-address-" ++ toString r.rid))) ++
  (dp.daddrs.map (fun c => DEv.callWrite ("create-ip-address-" ++ c))) ++
  [DEv.pgWrite 60, .commitEv, .callRead "get-routes"] ++
  ((router.routes.filter (fun r => managedStarts r.comment)).map
    (fun r => DEv.callWrite ("delete-route-" ++ toString r.rid))) ++
  (dp.droutes.map (fun c => DEv.callWrite ("create-route-" ++ c))) ++
  [DEv.pgWrite 70, .commitEv, .callRead "get-firewall-filter-rules"] ++
  ((router.firewallRules.filter (fun r => managedStarts r.comment)).map
    (fun r => DEv.callWrite ("delete-firewall-filter-rule-" ++ toString r.rid))) ++
  (dp.dfws.map (fun c => DEv.callWrite ("create-firewall-filter-rule-" ++ c))) ++
  [DEv.pgWrite 80, .commitEv, .callRead "get-nat-rules"] ++
  ((router.natRules.filter (fun r => managedStarts r.comment)).map
    (fun r => DEv.callWrite ("delete-nat-rule-" ++ toString r.rid))) ++
  (dp.dnats.map (fun c => DEv.callWrite ("create-nat-rule-" ++ c))) ++
  [DEv.pgWrite 90, .commitEv,
   .callRead "get-wireguard-interfaces-verify",
   .pgWrite 100, .stWrite .completed, .commitEv]

/-- Distinguish client calls (which may raise `MikrotikAPIError`). -/
def isClientCall : DEv → Bool
  | .callRead _ => true
  | .callWrite _ => true
  | _ => false

/-- The events of the `except` branches of the source: set the job failed, stamp
    it, commit. -/
def failEvents : List DEv := [DEv.stWrite .failed, .commitEv]

/-- Run the script with failure injection: the `failAt`-th client call (if
    any) raises, after which the `except` branch runs and the worker stops. -/
def runWorker : List DEv → Option Nat → Nat → List DEv
  | [], _, _ => []
  | e :: rest, failAt, k =>
    if isClientCall e then
      if failAt = some k then failEvents
      else e :: runWorker rest failAt (k + 1)
    else e :: runWorker rest failAt k

/-- One full execution of `_execute_deployment`, as its event trace. -/
def executeDeployment (router : RouterState) (dp : DesiredPlan) (ifaceName : String)
    (failAt : Option Nat) : List DEv :=
  runWorker (deployScript router dp ifaceName) failAt 0

/-- The job-progress values written during a trace, in order. -/
def progressProj : List DEv → List Nat
  | [] => []
  | DEv.pgWrite n :: rest => n :: progressProj rest
  | DEv.stWrite _ :: rest => progressProj rest
  | DEv.bkWrite _ :: rest => progressProj rest
  | DEv.commitEv :: rest => progressProj rest
  | DEv.callRead _ :: rest => progressProj rest
  | DEv.callWrite _ :: rest => progressProj rest

/-- The job-status values written during a trace, in order. -/
def statusProj : List DEv → List JobStatus
  | [] => []
  | DEv.stWrite s :: rest => s :: statusProj rest
  | DEv.pgWrite _ :: rest => statusProj rest
  | DEv.bkWrite _ :: rest => statusProj rest
  | DEv.commitEv :: rest => statusProj rest
  | DEv.callRead _ :: rest => statusProj rest
  | DEv.callWrite _ :: rest => statusProj rest

/-- Router-write events. -/
def isWriteCall : DEv → Bool
  | .callWrite _ => true
  | _ => false

/-- Backup-capture events. -/
def isBackupEv : DEv → Bool
  | .bkWrite _ => true
  | _ => false

/-- Checker: every router write is preceded (strictly) by a backup capture.
    The flag records whether a backup has been seen. -/
def writesAfterBackup : List DEv → Bool → Bool
  | [], _ => true
  | e :: rest, seen =>
    if isWriteCall e then seen && writesAfterBackup rest seen
    else writesAfterBackup rest (seen || isBackupEv e)

/-- The milestone table of the specification (section 4.6). -/
def specMilestones : List Nat := [5, 10, 15, 20, 30, 50, 60, 70, 80, 90, 100]

/-- The milestone values the source actually writes. -/
def codeMilestones : List Nat := [5, 10, 15, 20, 30, 40, 50, 60, 70, 80, 90, 100]

/-- Final job status once the worker writes of a run and one concurrent
    `cancel_job` write (inserted after the first `cancelAfter` worker status
    writes) have all been applied to the job row: the last write wins. -/
def finalStatusAfterCancel (workerWrites : List JobStatus) (cancelAfter : Nat) :
    JobStatus :=
  ((workerWrites.take cancelAfter ++ [JobStatus.cancelled]) ++
    workerWrites.drop cancelAfter).getLastD .pending

/-! ## Service listing (`app/api/endpoints/services.py`, lines 38-81)

`list_services` checks `wan_result.scalar_one_or_none()` but never binds the
result to a name; line 73 then evaluates `wan.name if wan else None`.  The
name `wan` is never assigned anywhere in the function body, so CPython
compiles it as a global load; the module global namespace (its imports and
definitions, listed below) has no entry `wan`, and neither do the builtins,
so the load raises `NameError`. -/

/-- Python error outcomes of an endpoint call. -/
inductive PyErr where
  | httpErr (code : Nat)
  | nameErr (n : String)
deriving DecidableEq, Repr

/-- The names bound in the module global namespace of
    `app/api/endpoints/services.py` (imports, `router`, and the functions
    defined in the module). -/
def servicesModuleGlobals : List String :=
  ["Optional", "uuid", "APIRouter", "Depends", "HTTPException", "status",
   "Query", "select", "func", "AsyncSession", "selectinload", "get_db",
   "Peer", "PeerType", "PublishedService", "WanNetwork", "ServiceCreate",
   "ServiceUpdate", "ServiceResponse", "ServiceListResponse",
   "IPAllocationService", "DeploymentService", "PiHoleService", "_slugify",
   "router", "build_service_response", "list_services", "create_service",
   "get_service", "update_service", "delete_service"]

/-- The local names assigned in `list_services` before line 73 executes
    (parameters and the local assignments of lines 48-72). -/
def listServicesLocalNames : List String :=
  ["wan_id", "skip", "limit", "peer_id", "db", "wan_result", "query",
   "result", "services", "count_query", "count_result", "total", "pihole"]

/-- `list_services` for a given WAN id: a missing WAN yields HTTP 404;
    otherwise line 73 resolves the name `wan`, which is in neither the
    bound locals of the function nor the module globals, raising `NameError`
    before any response can be produced. -/
def listServices (wanExists : Bool) : Except PyErr Unit :=
  if !wanExists then .error (.httpErr 404)
  else if listServicesLocalNames.contains "wan" ||
      servicesModuleGlobals.contains "wan" then .ok ()
  else .error (.nameErr "wan")

/-! ## Peer creation gate (`app/api/endpoints/peers.py`, lines 124-231) -/

/-- Outcomes of `create_peer` up to and including tunnel-IP allocation. -/
inductive CreatePeerResult where
  | created (tunnelIp : Nat)
  | conflict400 (conflicts : List SubnetConflict)
  | poolExhausted400
  | wanNotFound404
deriving DecidableEq, Repr

/-- `create_peer`: verify the WAN, run the conflict detector over the
    declared local subnets (skipped when the list is empty, matching the
    Python truthiness test), reject with HTTP 400 and the structured list of
    critical conflicts when any is critical, then allocate the tunnel IP
    (HTTP 400 when the pool is exhausted).  The peer row is only constructed
    after all of these gates pass, so an error result implies no peer was
    created.  An unparsable WAN tunnel range would raise out of
    `get_available_hosts` (modelled as `Except.error`). -/
def createPeer (wanOpt : Option WanLite) (localSubnets : List String)
    (allocated : List Nat) : Except Unit CreatePeerResult :=
  match wanOpt with
  | none => .ok .wanNotFound404
  | some wan =>
    match (if localSubnets.isEmpty then .ok []
           else detectConflicts (some wan) "" localSubnets []) with
    | .error e => .error e
    | .ok cs =>
      if !(cs.filter (fun c => c.severity == Severity.critical)).isEmpty then
        .ok (.conflict400 (cs.filter (fun c => c.severity == Severity.critical)))
      else
        match parseCidr wan.tunnelIpRange with
        | none => .error ()
        | some pool =>
          match allocateFirstFree allocated pool with
          | none => .ok .poolExhausted400
          | some ip => .ok (.created ip)

/-! ## Theorems -/

/-- C1: the specification requires at most one pending-or-running job per
    peer, with concurrent apply attempts rejected.  The source has no such
    guard: `deploy_configuration` creates and launches a job for a MikroTik
    peer unconditionally, so with one pending job already present a second
    call yields two non-terminal jobs for the same peer, and the
    `jobs/{id}/retry` path does the same while another job of the peer is
    running. -/
theorem c1_no_per_peer_exclusion :
    deployConfiguration [("p", true)] [⟨0, "p", JobStatus.pending⟩] "p" 1 =
      .ok (⟨1, "p", .pending⟩, [⟨0, "p", .pending⟩, ⟨1, "p", .pending⟩]) ∧
    nonTerminalCount [⟨0, "p", JobStatus.pending⟩, ⟨1, "p", .pending⟩] "p" = 2 ∧
    retryJob [("p", true)] [⟨0, "p", JobStatus.failed⟩, ⟨1, "p", .running⟩] 0 2 =
      .ok (⟨2, "p", .pending⟩,
        [⟨0, "p", .failed⟩, ⟨1, "p", .running⟩, ⟨2, "p", .pending⟩]) ∧
    nonTerminalCount
      [⟨0, "p", JobStatus.failed⟩, ⟨1, "p", .running⟩, ⟨2, "p", .pending⟩] "p" = 2 :=
  ⟨rfl, rfl, rfl, rfl⟩

/-- C9: cancelling a running job succeeds at the endpoint, but the worker
    never reads the job status: its status writes on a successful run are
    exactly `[running, completed]`, it keeps issuing router writes after any
    cancellation point, and once its final write lands the job row reads
    `completed` — the `cancelled` status has been overwritten, violating the
    claimed terminal ordering. -/
theorem c9_cancellation_overwritten :
    cancelJob .running = .ok .cancelled ∧
    statusProj (executeDeployment emptyRouter ⟨[], [], [], [], []⟩
      "wg-wan-overlay" none) = [.running, .completed] ∧
    finalStatusAfterCancel
      (statusProj (executeDeployment emptyRouter ⟨[], [], [], [], []⟩
        "wg-wan-overlay" none)) 1 = .completed ∧
    (executeDeployment emptyRouter ⟨[], [], [], [], []⟩
      "wg-wan-overlay" none).countP isWriteCall ≠ 0 := by
  refine ⟨rfl, by decide, by decide, by decide⟩

/-- C10: for an existing WAN, `list_services` reaches line 73, where the
    unbound name `wan` raises `NameError`; for a missing WAN it returns 404;
    in no case does the endpoint return its service list. -/
theorem c10_list_services_name_error :
    listServices true = .error (.nameErr "wan") ∧
    listServices false = .error (.httpErr 404) ∧
    ∀ b, (listServices b).isOk = false := by
  refine ⟨rfl, rfl, ?_⟩
  intro b
  cases b <;> rfl

/-- C2 counterexample: on the pool `10.0.0.0/31` the allocator returns the
    network address `10.0.0.0` (Python `hosts()` yields both addresses of a
    /31), although the usable hosts in the sense of the claim — network and
    broadcast excluded — form the empty set, so the claimed behaviour would
    be the pool-exhausted outcome. -/
theorem c2_counterexample :
    allocateFirstFree [] ⟨quad 10 0 0 0, 31⟩ = some (quad 10 0 0 0) ∧
    specUsableHosts ⟨quad 10 0 0 0, 31⟩ = [] ∧
    createPeerAllocate [] ⟨quad 10 0 0 0, 31⟩ = .assigned (quad 10 0 0 0) := by
  refine ⟨by decide, by decide, by decide⟩

/-- C4 counterexample: `decrypt_value` of the non-empty string `"A"` raises
    `InvalidToken` (its length is not a multiple of four, so it is not a
    Fernet token), hence `encrypt_value (decrypt_value "A")` cannot equal
    `"A"`: the claimed equation fails at `x = "A"`. -/
theorem c4_counterexample :
    ("A" : String) ≠ "" ∧
    decryptValue "A" = .error .invalidToken ∧
    (decryptValue "A").map (encryptValue 0) = .error .invalidToken := by
  refine ⟨by decide, rfl, rfl⟩

/-- C6 counterexample: for the conflicting subnet `10.0.0.0/8` (mask length
    8) and no existing subnets, the search accepts its very first candidate,
    the string `"172.16.0.0/8"`, which `strict=False` masks to `172.0.0.0/8`
    — a network that lies in neither `172.16.0.0/12` nor `192.168.0.0/16`,
    contradicting the claimed containment. -/
theorem c6_counterexample :
    findAvailableNatSubnet "10.0.0.0/8" [] = .ok (some ⟨quad 172 0 0 0, 8⟩) ∧
    maskBase (quad 172 16 0 0) 8 = quad 172 0 0 0 ∧
    netSubset ⟨quad 172 0 0 0, 8⟩ ⟨quad 172 16 0 0, 12⟩ = false ∧
    netSubset ⟨quad 172 0 0 0, 8⟩ ⟨quad 192 168 0 0, 16⟩ = false := by
  refine ⟨rfl, by decide, by decide, by decide⟩

/-- C7 counterexample: a route whose comment merely contains the ownership
    marker as an inner substring — it does not begin with it — is
    nevertheless deleted by `remove_managed_resources`, because the list
    filter of the client is the Python substring test, not a begins-with
    test. -/
theorem c7_counterexample :
    specBeginsWith "stale WAN-Overlay-Manager:route" ownMarker = false ∧
    (removeManagedResources
      ⟨[], [], [⟨7, "", "stale WAN-Overlay-Manager:route"⟩], [], [], []⟩).2 =
      [("route", 7)] ∧
    (removeManagedResources
      ⟨[], [], [⟨7, "", "stale WAN-Overlay-Manager:route"⟩], [], [], []⟩).1 =
      emptyRouter := by
  refine ⟨by decide, by decide, by decide⟩

/-- C8 counterexample: a successful run of the apply worker writes the
    progress value 40 (after deleting the old managed peers), which is not a
    milestone of the specification table. -/
theorem c8_counterexample :
    40 ∈ progressProj (executeDeployment emptyRouter ⟨[], [], [], [], []⟩
      "wg-wan-overlay" none) ∧
    (40 ∈ specMilestones) = False := by
  refine ⟨by decide, by decide⟩

/-- Scenario S1 of the specification, on the code: with tunnel range
    `10.0.0.0/29` the six successive allocations return `10.0.0.1` to
    `10.0.0.6` and the seventh attempt is the HTTP 400 pool-exhausted
    outcome. -/
theorem scenario_s1_pool_exhaustion :
    parseCidr "10.0.0.0/29" = some ⟨quad 10 0 0 0, 29⟩ ∧
    allocateFirstFree [] ⟨quad 10 0 0 0, 29⟩ = some (quad 10 0 0 1) ∧
    allocateFirstFree [quad 10 0 0 1] ⟨quad 10 0 0 0, 29⟩ = some (quad 10 0 0 2) ∧
    allocateFirstFree [quad 10 0 0 1, quad 10 0 0 2] ⟨quad 10 0 0 0, 29⟩ =
      some (quad 10 0 0 3) ∧
    allocateFirstFree [quad 10 0 0 1, quad 10 0 0 2, quad 10 0 0 3]
      ⟨quad 10 0 0 0, 29⟩ = some (quad 10 0 0 4) ∧
    allocateFirstFree [quad 10 0 0 1, quad 10 0 0 2, quad 10 0 0 3, quad 10 0 0 4]
      ⟨quad 10 0 0 0, 29⟩ = some (quad 10 0 0 5) ∧
    allocateFirstFree
      [quad 10 0 0 1, quad 10 0 0 2, quad 10 0 0 3, quad 10 0 0 4, quad 10 0 0 5]
      ⟨quad 10 0 0 0, 29⟩ = some (quad 10 0 0 6) ∧
    createPeerAllocate
      [quad 10 0 0 1, quad 10 0 0 2, quad 10 0 0 3, quad 10 0 0 4, quad 10 0 0 5,
        quad 10 0 0 6] ⟨quad 10 0 0 0, 29⟩ = .http400NoAvailableIps := by
  refine ⟨by decide, by decide, by decide, by decide, by decide, by decide,
    by decide, by decide⟩

/-- C2 (amended): for pools of mask length at most 30 — where the Python
    host enumeration coincides with the claimed "network and broadcast
    excluded" host set — the allocator returns the first usable host not in
    the allocated set, it returns the pool-exhausted outcome exactly when
    every usable host is allocated, and `create_peer` surfaces that outcome
    as HTTP 400. -/
theorem c2_first_free_usable_host (pool : Ipv4Net) (allocated : List Nat)
    (h : pool.plen ≤ 30) :
    allocateFirstFree allocated pool =
      (specUsableHosts pool).find? (fun ip => !allocated.contains ip) ∧
    (allocateFirstFree allocated pool = none ↔
      ∀ ip ∈ specUsableHosts pool, ip ∈ allocated) ∧
    (createPeerAllocate allocated pool = .http400NoAvailableIps ↔
      allocateFirstFree allocated pool = none) := by
  have hh : hostsList pool = specUsableHosts pool := by
    unfold hostsList specUsableHosts
    rw [if_neg]
    omega
  refine ⟨?_, ?_, ?_⟩
  · unfold allocateFirstFree
    rw [hh]
  · unfold allocateFirstFree
    rw [hh, List.find?_eq_none]
    constructor
    · intro hall ip hip
      have := hall ip hip
      simpa using this
    · intro hall ip hip
      simpa using hall ip hip
  · unfold createPeerAllocate
    cases hfind : allocateFirstFree allocated pool <;> simp

/-- Witness for `c2_first_free_usable_host` at the S1 pool `10.0.0.0/29`
    with two addresses already allocated. -/
theorem c2_first_free_usable_host_witness :
    allocateFirstFree [quad 10 0 0 1, quad 10 0 0 3] ⟨quad 10 0 0 0, 29⟩ =
      (specUsableHosts ⟨quad 10 0 0 0, 29⟩).find?
        (fun ip => !([quad 10 0 0 1, quad 10 0 0 3] : List Nat).contains ip) :=
  (c2_first_free_usable_host ⟨quad 10 0 0 0, 29⟩ [quad 10 0 0 1, quad 10 0 0 3]
    (by decide)).1

/-- C3: every `[Peer]` block generated for a target peer — one per other
    peer of the WAN with a truthy `public_key` — carries an `AllowedIPs`
    list without duplicates that contains the tunnel IP of the opposite peer
    as a /32 whenever that peer has one, and always contains the WAN
    shared-services range. -/
theorem c3_allowed_ips_shape (p : PeerRow) (allPeers : List PeerRow)
    (sharedRange : String) (routeAll : Bool) (o : PeerRow) (ips : List String)
    (hblock : (o, ips) ∈ wireguardPeerBlocks p allPeers sharedRange routeAll) :
    ips.Nodup ∧ sharedRange ∈ ips ∧
    ∀ t, o.tunnelIp = some t → t ≠ "" → (t ++ "/32") ∈ ips := by
  have hips : ips = peerBlockAllowedIps routeAll o sharedRange := by
    simp only [wireguardPeerBlocks, List.mem_map, List.mem_filter] at hblock
    obtain ⟨o', _, heq⟩ := hblock
    have h1 : o' = o := congrArg Prod.fst heq
    have h2 : peerBlockAllowedIps routeAll o' sharedRange = ips :=
      congrArg Prod.snd heq
    rw [h1] at h2
    exact h2.symm
  subst hips
  refine ⟨List.nodup_dedup _, ?_, ?_⟩
  · unfold peerBlockAllowedIps
    rw [List.mem_dedup]
    simp
  · intro t ht hne
    unfold peerBlockAllowedIps
    rw [List.mem_dedup]
    have htr : pyTruthy o.tunnelIp = true := by
      rw [ht]
      simpa [pyTruthy] using hne
    rw [ht] at htr ⊢
    simp [htr]

/-- Witness for `c3_allowed_ips_shape`: the S3 scenario — peer A with tunnel
    IP 10.0.0.1, peer B with a public key, tunnel IP 10.0.0.2, an endpoint,
    and one routed subnet `192.168.10.0/24`, shared range `10.0.5.0/24`. -/
theorem c3_allowed_ips_shape_witness :
    (peerBlockAllowedIps false
      ⟨"B", some "K_B", some "10.0.0.2", some "203.0.113.5:51820",
        [⟨"192.168.10.0/24", true, false, none⟩], []⟩ "10.0.5.0/24").Nodup ∧
    "10.0.5.0/24" ∈ peerBlockAllowedIps false
      ⟨"B", some "K_B", some "10.0.0.2", some "203.0.113.5:51820",
        [⟨"192.168.10.0/24", true, false, none⟩], []⟩ "10.0.5.0/24" ∧
    ("10.0.0.2" ++ "/32") ∈ peerBlockAllowedIps false
      ⟨"B", some "K_B", some "10.0.0.2", some "203.0.113.5:51820",
        [⟨"192.168.10.0/24", true, false, none⟩], []⟩ "10.0.5.0/24" := by
  have h := c3_allowed_ips_shape ⟨"A", some "K_A", some "10.0.0.1", none, [], []⟩
    [⟨"A", some "K_A", some "10.0.0.1", none, [], []⟩,
      ⟨"B", some "K_B", some "10.0.0.2", some "203.0.113.5:51820",
        [⟨"192.168.10.0/24", true, false, none⟩], []⟩]
    "10.0.5.0/24" false
    ⟨"B", some "K_B", some "10.0.0.2", some "203.0.113.5:51820",
      [⟨"192.168.10.0/24", true, false, none⟩], []⟩
    (peerBlockAllowedIps false
      ⟨"B", some "K_B", some "10.0.0.2", some "203.0.113.5:51820",
        [⟨"192.168.10.0/24", true, false, none⟩], []⟩ "10.0.5.0/24")
    (by decide)
  exact ⟨h.1, h.2.1, h.2.2 "10.0.0.2" rfl (by decide)⟩

/-- Reading back a unary count: the semicolon terminator recovers the count
    and the remainder. -/
theorem readUnary_replicate (c : Char) (hc : c ≠ ';') (n : Nat) (rest : List Char) :
    readUnary c (List.replicate n c ++ ';' :: rest) = some (n, rest) := by
  induction n with
  | zero => simp [readUnary]
  | succ n ih =>
    rw [List.replicate_succ, List.cons_append, readUnary]
    rw [if_neg hc, if_pos rfl, ih]
    rfl

/-- The padded token length is always a multiple of four. -/
theorem fernetEncodeL_length_mod (nonce : Nat) (s : List Char) :
    (fernetEncodeL nonce s).length % 4 = 0 := by
  unfold fernetEncodeL
  rw [List.length_append, List.length_replicate]
  omega

/-- Decryption inverts encryption for every plaintext and every nonce. -/
theorem fernetDecode_encode (nonce : Nat) (s : List Char) :
    fernetDecodeL (fernetEncodeL nonce s) = some (nonce, s) := by
  have hlen := fernetEncodeL_length_mod nonce s
  have hshape : fernetEncodeL nonce s =
      'g' :: 'A' :: 'A' :: 'A' ::
        (List.replicate nonce 'N' ++ ';' ::
          (List.replicate s.length 'L' ++ ';' ::
            (s ++ List.replicate ((4 - (fernetCore nonce s).length % 4) % 4) '='))) := by
    unfold fernetEncodeL fernetCore
    simp [List.append_assoc]
  have hcond : ¬((fernetEncodeL nonce s).length % 4 ≠ 0) := by omega
  rw [fernetDecodeL, if_neg hcond, hshape]
  rw [show stripHeader ('g' :: 'A' :: 'A' :: 'A' ::
      (List.replicate nonce 'N' ++ ';' ::
        (List.replicate s.length 'L' ++ ';' ::
          (s ++ List.replicate ((4 - (fernetCore nonce s).length % 4) % 4) '=')))) =
      some (List.replicate nonce 'N' ++ ';' ::
        (List.replicate s.length 'L' ++ ';' ::
          (s ++ List.replicate ((4 - (fernetCore nonce s).length % 4) % 4) '=')))
    from rfl]
  simp only [Option.bind_eq_bind, Option.some_bind]
  rw [readUnary_replicate 'N' (by decide)]
  simp only [Option.some_bind]
  rw [readUnary_replicate 'L' (by decide)]
  simp only [Option.some_bind]
  have hle : s.length ≤ (s ++ List.replicate
      ((4 - (fernetCore nonce s).length % 4) % 4) '=').length := by
    rw [List.length_append]
    omega
  rw [if_pos hle, List.drop_left, List.take_left]
  rw [if_pos (by simp [List.all_eq_true, List.mem_replicate])]

/-- C4 (amended): decryption inverts encryption — for every plaintext `x`
    and every encryption nonce, `decrypt_value (encrypt_value x) = x` — and
    both functions map the empty string to itself.  The converse direction
    of the original claim is dropped: decryption of an arbitrary non-empty
    string fails with `InvalidToken` (see the counterexample), and
    encryption draws a fresh random IV, so it is not even a function of the
    plaintext alone. -/
theorem c4_roundtrip (nonce : Nat) (x : String) :
    decryptValue (encryptValue nonce x) = .ok x ∧
    encryptValue nonce "" = "" ∧ decryptValue "" = .ok "" := by
  refine ⟨?_, rfl, rfl⟩
  by_cases hx : x = ""
  · subst hx; rfl
  · unfold encryptValue
    rw [if_neg hx]
    unfold decryptValue
    rw [if_neg ?_]
    · show (match fernetDecodeL ((⟨fernetEncodeL nonce x.data⟩ : String).data) with
        | some (_, s) => Except.ok (⟨s⟩ : String)
        | none => Except.error FernetErr.invalidToken) = Except.ok x
      show (match fernetDecodeL (fernetEncodeL nonce x.data) with
        | some (_, s) => Except.ok (⟨s⟩ : String)
        | none => Except.error FernetErr.invalidToken) = Except.ok x
      rw [fernetDecode_encode]
    · intro h
      have : fernetEncodeL nonce x.data = [] := congrArg String.data h
      rw [fernetEncodeL, fernetCore] at this
      exact absurd this (by simp)

/-- C5: whenever one of the candidate subnets of a peer overlaps the tunnel
    range of the WAN, the detector emits (among its results) a conflict of
    type `tunnel_ip_overlap` with severity `critical` and suggested
    resolutions exactly `dont_route, use_nat, change_subnet`; and
    `create_peer` for such a subnet list stops with the HTTP 400 outcome
    carrying a non-empty list of critical conflicts — the peer row is never
    constructed. -/
theorem c5_critical_tunnel_conflict (wan : WanLite) (pid : String)
    (subnets : List String) (allocated : List Nat) (s : String)
    (hs : s ∈ subnets) (hov : subnetsOverlap s wan.tunnelIpRange = true) :
    (∃ cs, detectConflicts (some wan) pid subnets [] = .ok cs ∧
      ∃ c ∈ cs, c.conflictType = "tunnel_ip_overlap" ∧
        c.severity = .critical ∧
        c.suggestedResolutions = [.dontRoute, .useNat, .changeSubnet]) ∧
    (∃ cs, createPeer (some wan) subnets allocated = .ok (.conflict400 cs) ∧
      cs ≠ [] ∧ ∀ c ∈ cs, c.severity = .critical) := by
  have hdet : detectConflicts (some wan) pid subnets [] =
      .ok (subnets.flatMap (conflictsForSubnet wan pid [])) := rfl
  have hmem : tunnelOverlapConflict wan.tunnelIpRange s ∈
      subnets.flatMap (conflictsForSubnet wan pid []) := by
    rw [List.mem_flatMap]
    refine ⟨s, hs, ?_⟩
    unfold conflictsForSubnet
    rw [if_pos hov]
    simp
  constructor
  · exact ⟨_, hdet, tunnelOverlapConflict wan.tunnelIpRange s, hmem, rfl, rfl, rfl⟩
  · have hne : subnets.isEmpty = false := by
      cases subnets with
      | nil => cases hs
      | cons a l => rfl
    have hdet2 : detectConflicts (some wan) "" subnets [] =
        .ok (subnets.flatMap (conflictsForSubnet wan "" [])) := rfl
    have hmem2 : tunnelOverlapConflict wan.tunnelIpRange s ∈
        subnets.flatMap (conflictsForSubnet wan "" []) := by
      rw [List.mem_flatMap]
      refine ⟨s, hs, ?_⟩
      unfold conflictsForSubnet
      rw [if_pos hov]
      simp
    have hmemf : tunnelOverlapConflict wan.tunnelIpRange s ∈
        (subnets.flatMap (conflictsForSubnet wan "" [])).filter
          (fun c => c.severity == Severity.critical) := by
      rw [List.mem_filter]
      exact ⟨hmem2, rfl⟩
    have hfne : ((subnets.flatMap (conflictsForSubnet wan "" [])).filter
        (fun c => c.severity == Severity.critical)).isEmpty = false := by
      rw [List.isEmpty_eq_false_iff_exists_mem]
      exact ⟨_, hmemf⟩
    refine ⟨(subnets.flatMap (conflictsForSubnet wan "" [])).filter
      (fun c => c.severity == Severity.critical), ?_, ?_, ?_⟩
    · unfold createPeer
      rw [hne]
      simp only [Bool.false_eq_true, if_false, hdet2, hfne, Bool.not_false, if_true]
    · exact List.ne_nil_of_mem hmemf
    · intro c hc
      have := (List.mem_filter.mp hc).2
      simpa using this

/-- Witness for `c5_critical_tunnel_conflict`: the S2 scenario, a WAN with
    tunnel range `10.0.0.0/24` and a peer declaring local subnet
    `10.0.0.0/24`. -/
theorem c5_critical_tunnel_conflict_witness :
    (∃ cs, detectConflicts (some ⟨"10.0.0.0/24", "10.0.5.0/24", []⟩) ""
        ["10.0.0.0/24"] [] = .ok cs ∧
      ∃ c ∈ cs, c.conflictType = "tunnel_ip_overlap" ∧
        c.severity = .critical ∧
        c.suggestedResolutions = [.dontRoute, .useNat, .changeSubnet]) ∧
    (∃ cs, createPeer (some ⟨"10.0.0.0/24", "10.0.5.0/24", []⟩)
        ["10.0.0.0/24"] [] = .ok (.conflict400 cs) ∧
      cs ≠ [] ∧ ∀ c ∈ cs, c.severity = .critical) :=
  c5_critical_tunnel_conflict ⟨"10.0.0.0/24", "10.0.5.0/24", []⟩ ""
    ["10.0.0.0/24"] [] "10.0.0.0/24" (by decide) (by decide)

/-- A successful `find?` splits its list into rejected candidates, the hit,
    and a remainder. -/
theorem find?_split {α : Type} (p : α → Bool) (l : List α) (a : α)
    (h : l.find? p = some a) :
    ∃ l1 l2, l = l1 ++ a :: l2 ∧ (∀ x ∈ l1, p x = false) ∧ p a = true := by
  induction l with
  | nil => simp at h
  | cons x xs ih =>
    rw [List.find?_cons] at h
    by_cases hx : p x = true
    · rw [hx] at h
      obtain rfl : x = a := by simpa using h
      exact ⟨[], xs, rfl, (by intro y hy; cases hy), hx⟩
    · rw [Bool.eq_false_iff.mpr hx] at h
      obtain ⟨l1, l2, rfl, hl1, ha⟩ := ih (by simpa using h)
      refine ⟨x :: l1, l2, rfl, ?_, ha⟩
      intro y hy
      rcases List.mem_cons.mp hy with rfl | hy
      · exact Bool.eq_false_iff.mpr hx
      · exact hl1 y hy

/-- Every NAT candidate carries the mask length of the conflicting net. -/
theorem natCandidates_plen (p : Nat) : ∀ c ∈ natCandidates p, c.plen = p := by
  intro c hc
  unfold natCandidates at hc
  rcases List.mem_append.mp hc with h | h <;>
    · obtain ⟨i, _, rfl⟩ := List.mem_map.mp h
      rfl

/-- An accepted candidate overlaps no parsed existing subnet. -/
theorem natCandidateAccepted_no_overlap (existing : List String) (c : Ipv4Net)
    (h : natCandidateAccepted existing c = true) :
    ∀ e ∈ existing, ∀ en, parseCidr e = some en → netOverlaps c en = false := by
  intro e he en hen
  have := (List.all_eq_true.mp h) e he
  rw [hen] at this
  simpa using this

/-- A multiple of `s` that is below another multiple of `s` is at least `s`
    below it. -/
theorem add_le_of_dvd_lt (m N s : Nat) (_hs : 0 < s) (hm : s ∣ m) (hN : s ∣ N)
    (h : m < N) : m + s ≤ N := by
  obtain ⟨q, rfl⟩ := hm
  obtain ⟨Q, rfl⟩ := hN
  have hq : q < Q := by
    by_contra hcon
    exact absurd (Nat.mul_le_mul_left s (Nat.le_of_not_lt hcon)) (Nat.not_le.mpr h)
  calc s * q + s = s * (q + 1) := by ring
    _ ≤ s * Q := Nat.mul_le_mul_left s hq

/-- For mask lengths of at least 16 every candidate network lies inside
    172.16.0.0/12 (first block) or 192.168.0.0/16 (second block). -/
theorem natCandidates_in_blocks (p : Nat) (hp : 16 ≤ p) :
    ∀ c ∈ natCandidates p,
      (netSubset c ⟨quad 172 16 0 0, 12⟩ || netSubset c ⟨quad 192 168 0 0, 16⟩) =
        true := by
  intro c hc
  have hsdvd : blockSize p ∣ 2 ^ 16 := by
    unfold blockSize
    exact Nat.pow_dvd_pow 2 (by omega)
  have hs1 : 1 ≤ blockSize p := Nat.one_le_two_pow
  have hsle : blockSize p ≤ 2 ^ 16 := Nat.le_of_dvd (by norm_num) hsdvd
  have hb12 : blockSize 12 = 1048576 := by norm_num [blockSize]
  have hb16 : blockSize 16 = 65536 := by norm_num [blockSize]
  unfold natCandidates at hc
  rcases List.mem_append.mp hc with h | h
  · obtain ⟨i, hi, rfl⟩ := List.mem_map.mp h
    have hi16 : i < 16 := List.mem_range.mp hi
    have ha : quad 172 (16 + i) 0 0 = (44048 + i) * 2 ^ 16 := by
      unfold quad
      ring
    have hdvda : blockSize p ∣ quad 172 (16 + i) 0 0 := by
      rw [ha]
      exact Dvd.dvd.mul_left hsdvd _
    have hmask : maskBase (quad 172 (16 + i) 0 0) p = quad 172 (16 + i) 0 0 :=
      Nat.div_mul_cancel hdvda
    rw [Bool.or_eq_true]
    left
    unfold netSubset Ipv4Net.lastAddr
    simp only [hmask, Bool.and_eq_true, decide_eq_true_eq]
    have hq : quad 172 16 0 0 = 2886729728 := by norm_num [quad]
    constructor
    · rw [hq, ha]
      omega
    · rw [hq, ha, hb12]
      omega
  · obtain ⟨t, ht, rfl⟩ := List.mem_map.mp h
    have ht256 : t < 256 := List.mem_range.mp ht
    have ha : quad 192 168 t 0 = 3232235520 + t * 256 := by
      unfold quad
      ring
    have hdvdbase : blockSize p ∣ 3232235520 := by
      refine Dvd.dvd.trans hsdvd ⟨49320, by norm_num⟩
    have hdvdtop : blockSize p ∣ 3232235520 + 65536 := by
      refine Dvd.dvd.trans hsdvd ⟨49321, by norm_num⟩
    have hm_le : maskBase (quad 192 168 t 0) p ≤ quad 192 168 t 0 :=
      Nat.div_mul_le_self _ _
    have hm_dvd : blockSize p ∣ maskBase (quad 192 168 t 0) p := by
      unfold maskBase
      exact dvd_mul_left _ _
    have hbase_le : 3232235520 ≤ maskBase (quad 192 168 t 0) p := by
      calc 3232235520 = 3232235520 / blockSize p * blockSize p :=
            (Nat.div_mul_cancel hdvdbase).symm
        _ ≤ quad 192 168 t 0 / blockSize p * blockSize p :=
            Nat.mul_le_mul_right _ (Nat.div_le_div_right (by omega))
        _ = maskBase (quad 192 168 t 0) p := rfl
    have hm_lt : maskBase (quad 192 168 t 0) p < 3232235520 + 65536 := by
      omega
    have htop := add_le_of_dvd_lt (maskBase (quad 192 168 t 0) p)
      (3232235520 + 65536) (blockSize p) (by omega) hm_dvd hdvdtop hm_lt
    rw [Bool.or_eq_true]
    right
    unfold netSubset Ipv4Net.lastAddr
    simp only [Bool.and_eq_true, decide_eq_true_eq]
    have hq : quad 192 168 0 0 = 3232235520 := by norm_num [quad]
    constructor
    · rw [hq]
      exact hbase_le
    · rw [hq, hb16]
      omega

/-- C6 (amended): for a parsable conflicting subnet of mask length `p`, the
    search returns the first candidate — in the order 172.16/12-block
    literals then 192.168/16-block literals, each masked by `strict=False`
    to a /`p` network — that overlaps no passed-in existing subnet, and
    `none` exactly when every candidate is rejected; any returned network
    has mask length `p` and overlaps no parsed existing subnet; and when
    `p ≥ 16` (in particular for every host-sized or LAN-sized conflicting
    subnet) it lies inside 172.16.0.0/12 or 192.168.0.0/16.  For `p < 12`
    the masking can escape both blocks (see the counterexample), which is
    the only part of the original claim that fails. -/
theorem c6_nat_subnet_search (conflicting : String) (existing : List String)
    (cn : Ipv4Net) (hp : parseCidr conflicting = some cn) :
    findAvailableNatSubnet conflicting existing =
      .ok ((natCandidates cn.plen).find? (natCandidateAccepted existing)) ∧
    (∀ net, (natCandidates cn.plen).find? (natCandidateAccepted existing) =
        some net →
      net.plen = cn.plen ∧
      (∀ e ∈ existing, ∀ en, parseCidr e = some en →
        netOverlaps net en = false) ∧
      (∃ l1 l2, natCandidates cn.plen = l1 ++ net :: l2 ∧
        ∀ c ∈ l1, natCandidateAccepted existing c = false) ∧
      (16 ≤ cn.plen →
        (netSubset net ⟨quad 172 16 0 0, 12⟩ ||
          netSubset net ⟨quad 192 168 0 0, 16⟩) = true)) ∧
    ((natCandidates cn.plen).find? (natCandidateAccepted existing) = none ↔
      ∀ c ∈ natCandidates cn.plen, natCandidateAccepted existing c = false) := by
  refine ⟨?_, ?_, ?_⟩
  · unfold findAvailableNatSubnet
    rw [hp]
  · intro net hfind
    have hmem : net ∈ natCandidates cn.plen := List.mem_of_find?_eq_some hfind
    have hacc : natCandidateAccepted existing net = true :=
      List.find?_some hfind
    refine ⟨natCandidates_plen cn.plen net hmem,
      natCandidateAccepted_no_overlap existing net hacc, ?_, ?_⟩
    · obtain ⟨l1, l2, hl, hl1, _⟩ :=
        find?_split (natCandidateAccepted existing) (natCandidates cn.plen)
          net hfind
      exact ⟨l1, l2, hl, hl1⟩
    · intro h16
      exact natCandidates_in_blocks cn.plen h16 net hmem
  · rw [List.find?_eq_none]
    constructor
    · intro h c hc
      exact Bool.eq_false_iff.mpr (h c hc)
    · intro h c hc
      rw [h c hc]
      exact Bool.false_ne_true

/-- Witness for `c6_nat_subnet_search`: conflicting subnet `10.1.0.0/16`
    with `172.16.0.0/16` already taken; the search skips the overlapping
    first candidate and returns `172.17.0.0/16`. -/
theorem c6_nat_subnet_search_witness :
    findAvailableNatSubnet "10.1.0.0/16" ["172.16.0.0/16"] =
      .ok ((natCandidates (16 : Nat)).find?
        (natCandidateAccepted ["172.16.0.0/16"])) ∧
    (natCandidates (16 : Nat)).find? (natCandidateAccepted ["172.16.0.0/16"]) =
      some ⟨quad 172 17 0 0, 16⟩ :=
  ⟨(c6_nat_subnet_search "10.1.0.0/16" ["172.16.0.0/16"]
      ⟨quad 10 1 0 0, 16⟩ (by decide)).1, by decide⟩

/-- C7 (amended): `remove_managed_resources` deletes exactly the resources
    whose comment CONTAINS the ownership marker as a substring (the Python
    `in` test of the list filters; every comment that begins with the marker
    in particular contains it), in the order NAT rules, firewall rules,
    routes, addresses, WireGuard peers, WireGuard interfaces; every resource
    whose comment does not contain the marker survives untouched; and
    afterwards `get_managed_resources` returns empty lists for all six
    families.  The original "begins with" wording fails only for comments
    that embed the marker strictly inside (see the counterexample). -/
theorem c7_remove_managed (st : RouterState) :
    ((removeManagedResources st).2 =
      (filterByComment ownMarker st.natRules).map (fun r => ("nat", r.rid)) ++
      (filterByComment ownMarker st.firewallRules).map
        (fun r => ("firewall", r.rid)) ++
      (filterByComment ownMarker st.routes).map (fun r => ("route", r.rid)) ++
      (filterByComment ownMarker st.addrs).map (fun r => ("address", r.rid)) ++
      (filterByComment ownMarker st.wgPeers).map
        (fun r => ("wireguard-peer", r.rid)) ++
      (filterByComment ownMarker st.wgIfaces).map
        (fun r => ("wireguard-interface", r.rid))) ∧
    (∀ r, r ∈ (removeManagedResources st).1.natRules ↔
      r ∈ st.natRules ∧ pyInStr ownMarker r.comment = false) ∧
    (∀ r, r ∈ (removeManagedResources st).1.firewallRules ↔
      r ∈ st.firewallRules ∧ pyInStr ownMarker r.comment = false) ∧
    (∀ r, r ∈ (removeManagedResources st).1.routes ↔
      r ∈ st.routes ∧ pyInStr ownMarker r.comment = false) ∧
    (∀ r, r ∈ (removeManagedResources st).1.addrs ↔
      r ∈ st.addrs ∧ pyInStr ownMarker r.comment = false) ∧
    (∀ r, r ∈ (removeManagedResources st).1.wgPeers ↔
      r ∈ st.wgPeers ∧ pyInStr ownMarker r.comment = false) ∧
    (∀ r, r ∈ (removeManagedResources st).1.wgIfaces ↔
      r ∈ st.wgIfaces ∧ pyInStr ownMarker r.comment = false) ∧
    getManagedResources (removeManagedResources st).1 = emptyRouter := by
  refine ⟨rfl, ?_, ?_, ?_, ?_, ?_, ?_, ?_⟩
  · intro r
    simp [removeManagedResources, List.mem_filter]
  · intro r
    simp [removeManagedResources, List.mem_filter]
  · intro r
    simp [removeManagedResources, List.mem_filter]
  · intro r
    simp [removeManagedResources, List.mem_filter]
  · intro r
    simp [removeManagedResources, List.mem_filter]
  · intro r
    simp [removeManagedResources, List.mem_filter]
  · simp [getManagedResources, removeManagedResources, filterByComment,
      emptyRouter, List.filter_filter]

/-- A run of the worker is a truncation of its success script, possibly
    followed by the events of the exception branch. -/
theorem runWorker_decomp (acts : List DEv) (failAt : Option Nat) (k : Nat) :
    ∃ n tail, runWorker acts failAt k = acts.take n ++ tail ∧
      (tail = [] ∨ tail = failEvents) := by
  induction acts generalizing k with
  | nil => exact ⟨0, [], rfl, Or.inl rfl⟩
  | cons e rest ih =>
    rw [runWorker]
    by_cases hc : isClientCall e = true
    · rw [if_pos hc]
      by_cases hf : failAt = some k
      · rw [if_pos hf]
        exact ⟨0, failEvents, rfl, Or.inr rfl⟩
      · rw [if_neg hf]
        obtain ⟨n, tail, htr, htail⟩ := ih (k + 1)
        exact ⟨n + 1, tail, by rw [htr]; rfl, htail⟩
    · rw [if_neg hc]
      obtain ⟨n, tail, htr, htail⟩ := ih k
      exact ⟨n + 1, tail, by rw [htr]; rfl, htail⟩

/-- Progress projection distributes over concatenation. -/
theorem progressProj_append (a b : List DEv) :
    progressProj (a ++ b) = progressProj a ++ progressProj b := by
  induction a with
  | nil => rfl
  | cons e a' ih => cases e <;> simp [progressProj, ih]

/-- Router-call segments produced by the per-resource loops contribute no
    progress writes. -/
theorem progressProj_map_callWrite {α : Type} (l : List α) (g : α → String) :
    progressProj (l.map (fun x => DEv.callWrite (g x))) = [] := by
  induction l with
  | nil => rfl
  | cons x l' ih => simp [progressProj, ih]

/-- The success script writes exactly the code milestones, in order. -/
theorem progressProj_script (router : RouterState) (dp : DesiredPlan)
    (iname : String) :
    progressProj (deployScript router dp iname) = codeMilestones := by
  unfold deployScript codeMilestones
  cases hany : router.wgIfaces.any (fun r => r.name == iname) <;>
  · simp only [List.append_assoc]
    simp only [progressProj_append]
    simp only [progressProj_map_callWrite]
    simp only [Bool.false_eq_true, if_false, eq_self_iff_true, if_true]
    simp only [progressProj]
    rfl

/-- Backup-count of the loop segments is zero. -/
theorem countP_bk_map {α : Type} (l : List α) (g : α → String) :
    (l.map (fun x => DEv.callWrite (g x))).countP isBackupEv = 0 := by
  induction l with
  | nil => rfl
  | cons x l' ih => simp [List.countP_cons, isBackupEv, ih]

/-- The success script captures the backup exactly once. -/
theorem countP_backup_script (router : RouterState) (dp : DesiredPlan)
    (iname : String) :
    (deployScript router dp iname).countP isBackupEv = 1 := by
  unfold deployScript
  cases hany : router.wgIfaces.any (fun r => r.name == iname) <;>
  · simp only [List.append_assoc]
    simp only [Bool.false_eq_true, if_false, eq_self_iff_true, if_true]
    simp only [List.countP_append, countP_bk_map]
    simp only [List.countP_cons, isBackupEv]
    rfl

/-- Every backup event of the success script carries the managed-resource
    snapshot of the initial router state. -/
theorem backup_values_script (router : RouterState) (dp : DesiredPlan)
    (iname : String) :
    ∀ e ∈ deployScript router dp iname, isBackupEv e = true →
      e = DEv.bkWrite (getManagedResources router) := by
  intro e he hbk
  cases e <;> simp [isBackupEv] at hbk
  unfold deployScript at he
  cases hany : router.wgIfaces.any (fun r => r.name == iname) <;>
    rw [hany] at he <;> simp at he <;> rw [he]

/-- Write-events are never backup-events. -/
theorem isWriteCall_not_backup (e : DEv) (h : isWriteCall e = true) :
    isBackupEv e = false := by
  cases e <;> simp [isWriteCall] at h ⊢ <;> rfl

/-- The backup checker distributes over concatenation. -/
theorem waB_append (a b : List DEv) (s : Bool) :
    writesAfterBackup (a ++ b) s =
      (writesAfterBackup a s && writesAfterBackup b (s || a.any isBackupEv)) := by
  induction a generalizing s with
  | nil => simp [writesAfterBackup]
  | cons e a' ih =>
    by_cases hw : isWriteCall e = true
    · have hbk : isBackupEv e = false := isWriteCall_not_backup e hw
      simp [writesAfterBackup, hw, hbk, ih, Bool.and_assoc]
    · rw [List.cons_append, writesAfterBackup,
        if_neg (by simpa using hw), writesAfterBackup, if_neg (by simpa using hw)]
      rw [ih]
      simp [Bool.or_assoc]

/-- Once a backup has been seen, the checker always succeeds. -/
theorem waB_true (l : List DEv) : writesAfterBackup l true = true := by
  induction l with
  | nil => rfl
  | cons e l' ih =>
    rw [writesAfterBackup]
    by_cases hw : isWriteCall e = true
    · rw [if_pos hw, ih]
      rfl
    · rw [if_neg hw]
      simpa using ih

/-- A write-free event list passes the checker under any flag. -/
theorem waB_no_writes (l : List DEv) (s : Bool)
    (h : ∀ e ∈ l, isWriteCall e = false) : writesAfterBackup l s = true := by
  induction l generalizing s with
  | nil => rfl
  | cons e l' ih =>
    rw [writesAfterBackup, if_neg]
    · exact ih _ (fun x hx => h x (List.mem_cons_of_mem e hx))
    · rw [h e (List.mem_cons_self e l')]
      exact Bool.false_ne_true

/-- The checker is preserved by truncation. -/
theorem waB_take (l : List DEv) (s : Bool) (n : Nat)
    (h : writesAfterBackup l s = true) :
    writesAfterBackup (l.take n) s = true := by
  induction l generalizing s n with
  | nil => simp [writesAfterBackup]
  | cons e l' ih =>
    cases n with
    | zero => rfl
    | succ n =>
      rw [List.take_succ_cons, writesAfterBackup]
      rw [writesAfterBackup] at h
      by_cases hw : isWriteCall e = true
      · rw [if_pos hw] at h ⊢
        rcases Bool.and_eq_true .. |>.mp h with ⟨hs, hrest⟩
        subst hs
        rw [ih _ _ hrest]
        rfl
      · rw [if_neg hw] at h ⊢
        exact ih _ _ h

/-- If the checker passes with no backup seen yet and the list contains a
    write, then it contains a backup. -/
theorem waB_backup_exists (l : List DEv) (s : Bool)
    (h : writesAfterBackup l s = true) (hw : ∃ w ∈ l, isWriteCall w = true) :
    s = true ∨ ∃ b ∈ l, isBackupEv b = true := by
  induction l generalizing s with
  | nil => obtain ⟨w, hw, _⟩ := hw; cases hw
  | cons e l' ih =>
    rw [writesAfterBackup] at h
    obtain ⟨w, hwmem, hwt⟩ := hw
    by_cases he : isWriteCall e = true
    · rw [if_pos he] at h
      rcases Bool.and_eq_true .. |>.mp h with ⟨hs, _⟩
      exact Or.inl hs
    · rw [if_neg he] at h
      rcases List.mem_cons.mp hwmem with rfl | hwmem'
      · exact absurd hwt he
      · rcases ih _ h ⟨w, hwmem', hwt⟩ with hor | ⟨b, hb, hbt⟩
        · rcases Bool.or_eq_true .. |>.mp hor with hs | hbk
          · exact Or.inl hs
          · exact Or.inr ⟨e, List.mem_cons_self e l', hbk⟩
        · exact Or.inr ⟨b, List.mem_cons_of_mem e hb, hbt⟩

/-- The checker passes on the full success script with no backup seen. -/
theorem waB_script (router : RouterState) (dp : DesiredPlan) (iname : String) :
    writesAfterBackup (deployScript router dp iname) false = true := by
  unfold deployScript
  simp only [List.append_assoc]
  rw [waB_append]
  simp [writesAfterBackup, isWriteCall, isBackupEv, waB_true]

/-- C8 (amended): in every execution of the apply worker — over any initial
    router state, desired state, interface name, and failure point — every
    backup capture stores `get_managed_resources()` of the initial router
    state, the backup is captured at most once and, in any execution that
    performs a router write, exactly once and strictly before the first
    write; and the progress values written are drawn from the code milestone
    table 5, 10, 15, 20, 30, 40, 50, 60, 70, 80, 90, 100 — the table of the
    specification extended with the value 40 — and never decrease. -/
theorem c8_backup_and_progress (router : RouterState) (dp : DesiredPlan)
    (iname : String) (failAt : Option Nat) :
    (∀ e ∈ executeDeployment router dp iname failAt, isBackupEv e = true →
      e = DEv.bkWrite (getManagedResources router)) ∧
    (executeDeployment router dp iname failAt).countP isBackupEv ≤ 1 ∧
    writesAfterBackup (executeDeployment router dp iname failAt) false = true ∧
    ((∃ e ∈ executeDeployment router dp iname failAt, isWriteCall e = true) →
      (executeDeployment router dp iname failAt).countP isBackupEv = 1) ∧
    (∀ n ∈ progressProj (executeDeployment router dp iname failAt),
      n ∈ codeMilestones) ∧
    List.Pairwise (· ≤ ·)
      (progressProj (executeDeployment router dp iname failAt)) := by
  obtain ⟨n, tail, htr, htail⟩ :=
    runWorker_decomp (deployScript router dp iname) failAt 0
  have htrace : executeDeployment router dp iname failAt =
      (deployScript router dp iname).take n ++ tail := htr
  have htail_bk : tail.countP isBackupEv = 0 := by
    rcases htail with rfl | rfl <;> rfl
  have htail_nw : ∀ e ∈ tail, isWriteCall e = false := by
    rcases htail with rfl | rfl
    · intro e he
      cases he
    · intro e he
      rcases List.mem_cons.mp he with rfl | he2
      · rfl
      rcases List.mem_cons.mp he2 with rfl | he3
      · rfl
      cases he3
  have htail_pg : progressProj tail = [] := by
    rcases htail with rfl | rfl <;> rfl
  have hsub : ((deployScript router dp iname).take n).Sublist
      (deployScript router dp iname) := List.take_sublist n _
  have hcount : ((deployScript router dp iname).take n).countP isBackupEv ≤ 1 := by
    calc ((deployScript router dp iname).take n).countP isBackupEv
        ≤ (deployScript router dp iname).countP isBackupEv :=
          hsub.countP_le isBackupEv
      _ = 1 := countP_backup_script router dp iname
  have hproj : progressProj (executeDeployment router dp iname failAt) =
      progressProj ((deployScript router dp iname).take n) := by
    rw [htrace, progressProj_append, htail_pg, List.append_nil]
  have hprojsub : (progressProj ((deployScript router dp iname).take n)).Sublist
      codeMilestones := by
    have hsplit : deployScript router dp iname =
        (deployScript router dp iname).take n ++
          (deployScript router dp iname).drop n := (List.take_append_drop n _).symm
    have h2 : progressProj (deployScript router dp iname) =
        progressProj ((deployScript router dp iname).take n) ++
          progressProj ((deployScript router dp iname).drop n) := by
      rw [← progressProj_append, ← hsplit]
    have h1 : (progressProj ((deployScript router dp iname).take n)).Sublist
        (progressProj (deployScript router dp iname)) := by
      rw [h2]
      exact List.sublist_append_left _ _
    rw [progressProj_script router dp iname] at h1
    exact h1
  refine ⟨?_, ?_, ?_, ?_, ?_, ?_⟩
  · intro e he hbk
    rw [htrace] at he
    rcases List.mem_append.mp he with h | h
    · exact backup_values_script router dp iname e (List.take_subset n _ h) hbk
    · rcases htail with rfl | rfl
      · cases h
      · rcases List.mem_cons.mp h with rfl | h2
        · simp [isBackupEv] at hbk
        rcases List.mem_cons.mp h2 with rfl | h3
        · simp [isBackupEv] at hbk
        cases h3
  · rw [htrace, List.countP_append, htail_bk]
    omega
  · rw [htrace, waB_append]
    rw [waB_take _ _ _ (waB_script router dp iname)]
    rw [waB_no_writes tail _ htail_nw]
    rfl
  · intro ⟨e, he, hew⟩
    rw [htrace] at he
    have hetake : e ∈ (deployScript router dp iname).take n := by
      rcases List.mem_append.mp he with h | h
      · exact h
      · rw [htail_nw e h] at hew
        cases hew
    have hbk := waB_backup_exists ((deployScript router dp iname).take n) false
      (waB_take _ _ _ (waB_script router dp iname)) ⟨e, hetake, hew⟩
    rcases hbk with h | ⟨b, hb, hbt⟩
    · cases h
    · have hpos : 0 < ((deployScript router dp iname).take n).countP isBackupEv :=
        List.countP_pos_iff.mpr ⟨b, hb, hbt⟩
      rw [htrace, List.countP_append, htail_bk]
      omega
  · intro m hm
    rw [hproj] at hm
    exact hprojsub.subset hm
  · rw [hproj]
    exact List.Pairwise.sublist hprojsub (by decide)

/-- Witness for `c4_roundtrip` at a concrete secret and nonce. -/
theorem c4_roundtrip_witness :
    decryptValue (encryptValue 5 "secret") = .ok "secret" :=
  (c4_roundtrip 5 "secret").1

/-- Witness for `c7_remove_managed` on a router holding one managed route
    and one foreign firewall rule. -/
theorem c7_remove_managed_witness :
    getManagedResources
      ((removeManagedResources
        ⟨[], [⟨1, "", "user rule"⟩], [⟨2, "", "WAN-Overlay-Manager:route-to-x"⟩],
          [], [], []⟩).1) = emptyRouter :=
  (c7_remove_managed
    ⟨[], [⟨1, "", "user rule"⟩], [⟨2, "", "WAN-Overlay-Manager:route-to-x"⟩],
      [], [], []⟩).2.2.2.2.2.2.2

/-- Witness for `c8_backup_and_progress` on a concrete successful run. -/
theorem c8_backup_and_progress_witness :
    writesAfterBackup
      (executeDeployment emptyRouter ⟨[], [], [], [], []⟩ "wg-wan-overlay" none)
      false = true :=
  (c8_backup_and_progress emptyRouter ⟨[], [], [], [], []⟩ "wg-wan-overlay"
    none).2.2.1
